import Mathlib

/-!
Verification of the JSON extraction/validation pipeline and the structured-to-HTML
renderer of the genAi demo scripts.

The scripts share one pipeline: take the model's raw text, locate the substring from
the first opening brace to the last closing brace, parse it with JSON.parse, and
validate the parsed value against a zod schema.  One script additionally renders the
validated form structure to HTML with convertToHTML.

Strings are modelled at the level of their character lists; the JS code indexes by
UTF-16 code units, which coincides with characters on all inputs relevant here.
-/

namespace GenAi

/-- JSON values as produced by JSON.parse.  A number keeps its source lexeme, which
is faithful for the claims at hand since none of them computes with numbers. -/
inductive Json where
  | null
  | bool (b : Bool)
  | num (lexeme : String)
  | str (s : String)
  | arr (items : List Json)
  | obj (entries : List (String × Json))
deriving Repr


/-- First index of a character in a character list, if any.  Models the scan behind
String.prototype.indexOf for a single-character needle. -/
def idxAux (c : Char) : List Char → Option Nat
  | [] => none
  | d :: ds => if d = c then some 0 else (idxAux c ds).map (· + 1)

/-- Last index of a character in a character list, if any.  Models the scan behind
String.prototype.lastIndexOf for a single-character needle. -/
def lastIdxAux (c : Char) : List Char → Option Nat
  | [] => none
  | d :: ds =>
    match lastIdxAux c ds with
    | some n => some (n + 1)
    | none => if d = c then some 0 else none

/-- JS String.prototype.indexOf with a one-character needle: the index of the first
occurrence, or the sentinel -1. -/
def jsIndexOf (s : String) (c : Char) : Int :=
  match idxAux c s.data with
  | some n => (n : Int)
  | none => -1

/-- JS String.prototype.lastIndexOf with a one-character needle: the index of the last
occurrence, or the sentinel -1. -/
def jsLastIndexOf (s : String) (c : Char) : Int :=
  match lastIdxAux c s.data with
  | some n => (n : Int)
  | none => -1

/-- JS String.prototype.substring for the in-range, ordered case used by the scripts:
the characters at positions a .. b-1. -/
def substringJs (s : String) (a b : Nat) : String :=
  String.mk ((s.data.drop a).take (b - a))

/-- The brace-extraction step shared by all four scripts: the indices of the first
opening brace and the last closing brace, the sentinel / ordering guard, and the
inclusive substring between them. -/
def extractCandidate (t : String) : Option String :=
  let jsonStartIndex := jsIndexOf t '\x7b'
  let jsonEndIndex := jsLastIndexOf t '\x7d'
  if jsonStartIndex = -1 ∨ jsonEndIndex = -1 ∨ jsonStartIndex ≥ jsonEndIndex then
    none
  else
    some (substringJs t jsonStartIndex.toNat (jsonEndIndex.toNat + 1))

/-- The whitespace class of the JSON grammar (RFC 8259), as skipped by JSON.parse. -/
def isJsonWs (c : Char) : Bool :=
  c = ' ' || c = '\t' || c = '\n' || c = '\r'

/-- Skip JSON whitespace. -/
def skipWs (cs : List Char) : List Char :=
  cs.dropWhile isJsonWs

/-- Value of a hexadecimal digit. -/
def hexVal (c : Char) : Option Nat :=
  if '0' ≤ c ∧ c ≤ '9' then some (c.toNat - '0'.toNat)
  else if 'a' ≤ c ∧ c ≤ 'f' then some (c.toNat - 'a'.toNat + 10)
  else if 'A' ≤ c ∧ c ≤ 'F' then some (c.toNat - 'A'.toNat + 10)
  else none

/-- Four hex digits of a \u escape. -/
def parseHex4 : List Char → Option (Nat × List Char)
  | a :: b :: c :: d :: rest =>
    match hexVal a, hexVal b, hexVal c, hexVal d with
    | some x, some y, some z, some w => some (((x * 16 + y) * 16 + z) * 16 + w, rest)
    | _, _, _, _ => none
  | _ => none

/-- The single-character escapes of JSON strings. -/
def escChar (c : Char) : Option Char :=
  if c = '"' then some '"'
  else if c = '\\' then some '\\'
  else if c = '/' then some '/'
  else if c = 'b' then some (Char.ofNat 8)
  else if c = 'f' then some (Char.ofNat 12)
  else if c = 'n' then some '\n'
  else if c = 'r' then some '\r'
  else if c = 't' then some '\t'
  else none

/-- Body of a JSON string literal, after the opening quote.  Surrogate-pair
recombination of \u escapes is not modelled; no claim involves it. -/
def pStringBody (fuel : Nat) (cs : List Char) (acc : List Char) :
    Option (String × List Char) :=
  match fuel with
  | 0 => none
  | f + 1 =>
    match cs with
    | [] => none
    | c :: rest =>
      if c = '"' then some (String.mk acc.reverse, rest)
      else if c = '\\' then
        match rest with
        | [] => none
        | e :: rest2 =>
          if e = 'u' then
            match parseHex4 rest2 with
            | some (n, rest3) => pStringBody f rest3 (Char.ofNat n :: acc)
            | none => none
          else
            match escChar e with
            | some ec => pStringBody f rest2 (ec :: acc)
            | none => none
      else if c.toNat < 32 then none
      else pStringBody f rest (c :: acc)

/-- Leading decimal digits. -/
def takeDigits (cs : List Char) : List Char × List Char :=
  (cs.takeWhile Char.isDigit, cs.dropWhile Char.isDigit)

/-- Optional fraction part of a JSON number. -/
def pFracPart (cs : List Char) : Option (List Char × List Char) :=
  match cs with
  | '.' :: rest =>
    let p := takeDigits rest
    if p.1.isEmpty then none else some ('.' :: p.1, p.2)
  | _ => some ([], cs)

/-- Optional exponent part of a JSON number. -/
def pExpPart (cs : List Char) : Option (List Char × List Char) :=
  match cs with
  | e :: rest =>
    if e = 'e' ∨ e = 'E' then
      let q :=
        match rest with
        | '+' :: r => (['+'], r)
        | '-' :: r => (['-'], r)
        | _ => (([] : List Char), rest)
      let p := takeDigits q.2
      if p.1.isEmpty then none else some (e :: (q.1 ++ p.1), p.2)
    else some ([], cs)
  | [] => some ([], [])

/-- A JSON number lexeme: optional minus, integer part with no leading zeros,
optional fraction, optional exponent. -/
def pNumber (cs : List Char) : Option (String × List Char) :=
  let p0 :=
    match cs with
    | '-' :: rest => ((['-'] : List Char), rest)
    | _ => (([] : List Char), cs)
  let p1 :=
    match p0.2 with
    | '0' :: rest => ((['0'] : List Char), rest)
    | _ => takeDigits p0.2
  if p1.1.isEmpty then none
  else
    match pFracPart p1.2 with
    | none => none
    | some (fr, cs3) =>
      match pExpPart cs3 with
      | none => none
      | some (ex, cs4) => some (String.mk (p0.1 ++ p1.1 ++ fr ++ ex), cs4)

/-- Insert a member into an object under JS semantics: a repeated key keeps its first
position and takes the later value. -/
def objInsert (k : String) (v : Json) : List (String × Json) → List (String × Json)
  | [] => [(k, v)]
  | (k', v') :: rest =>
    if k' = k then (k', v) :: rest else (k', v') :: objInsert k v rest

mutual

/-- A JSON value, by recursive descent.  The fuel only bounds nesting of the mutual
group; every recursive call consumes input, so fuel at least the input length is
always enough. -/
def pValue : Nat → List Char → Option (Json × List Char)
  | 0, _ => none
  | f + 1, cs =>
    match skipWs cs with
    | [] => none
    | c :: rest =>
      if c = '"' then
        match pStringBody (rest.length + 1) rest [] with
        | some (s, r) => some (.str s, r)
        | none => none
      else if c = '\x7b' then
        match skipWs rest with
        | '\x7d' :: r => some (.obj [], r)
        | _ => pMembers f rest []
      else if c = '[' then
        match skipWs rest with
        | ']' :: r => some (.arr [], r)
        | _ => pItems f rest []
      else if c = 't' then
        match rest with
        | 'r' :: 'u' :: 'e' :: r => some (.bool true, r)
        | _ => none
      else if c = 'f' then
        match rest with
        | 'a' :: 'l' :: 's' :: 'e' :: r => some (.bool false, r)
        | _ => none
      else if c = 'n' then
        match rest with
        | 'u' :: 'l' :: 'l' :: r => some (.null, r)
        | _ => none
      else
        match pNumber (c :: rest) with
        | some (lex, r) => some (.num lex, r)
        | none => none

/-- The members of a JSON object, after the opening brace. -/
def pMembers : Nat → List Char → List (String × Json) → Option (Json × List Char)
  | 0, _, _ => none
  | f + 1, cs, acc =>
    match skipWs cs with
    | '"' :: rest =>
      match pStringBody (rest.length + 1) rest [] with
      | some (k, r1) =>
        match skipWs r1 with
        | ':' :: r2 =>
          match pValue f r2 with
          | some (v, r3) =>
            match skipWs r3 with
            | ',' :: r4 => pMembers f r4 (objInsert k v acc)
            | '\x7d' :: r4 => some (.obj (objInsert k v acc), r4)
            | _ => none
          | none => none
        | _ => none
      | none => none
    | _ => none

/-- The items of a JSON array, after the opening bracket. -/
def pItems : Nat → List Char → List Json → Option (Json × List Char)
  | 0, _, _ => none
  | f + 1, cs, acc =>
    match pValue f cs with
    | some (v, r1) =>
      match skipWs r1 with
      | ',' :: r2 => pItems f r2 (acc ++ [v])
      | ']' :: r2 => some (.arr (acc ++ [v]), r2)
      | _ => none
    | none => none

end

/-- JSON.parse: one complete JSON text, with surrounding whitespace, and nothing
after it. -/
def JSON.parse (s : String) : Option Json :=
  match pValue (s.length + 1) s.data with
  | some (v, rest) => if (skipWs rest).isEmpty then some v else none
  | none => none

/-! ## Zod schema validation

Each zod schema is modelled as a function from the parsed JSON value to either the
validated value or the list of issues, an issue being a field path paired with a
reason.  As in zod, an object schema checks every declared field, collects all
issues, strips undeclared keys, and rebuilds the result in shape order. -/

/-- A validation issue: the path of the offending field, and the reason. -/
abbrev Issue := List String × String

/-- The issues of a validation outcome, empty on success. -/
def errsOf {α : Type} : Except (List Issue) α → List Issue
  | .error l => l
  | .ok _ => []

/-- Look a field up in an object entry list (object reads after JSON.parse are
unambiguous, since objInsert keeps keys unique). -/
def lookupField (k : String) : List (String × Json) → Option Json
  | [] => none
  | (k', v) :: rest => if k' = k then some v else lookupField k rest

/-- z.boolean() applied to a field that may be absent. -/
def zodBoolean (path : List String) : Option Json → Except (List Issue) Json
  | none => .error [(path, "Required")]
  | some (.bool b) => .ok (.bool b)
  | some _ => .error [(path, "Invalid type: expected boolean")]

/-- z.string() applied to a field that may be absent. -/
def zodString (path : List String) : Option Json → Except (List Issue) Json
  | none => .error [(path, "Required")]
  | some (.str s) => .ok (.str s)
  | some _ => .error [(path, "Invalid type: expected string")]

/-- z.string().nullable() applied to a field that may be absent. -/
def zodNullableString (path : List String) : Option Json → Except (List Issue) Json
  | none => .error [(path, "Required")]
  | some .null => .ok .null
  | some (.str s) => .ok (.str s)
  | some _ => .error [(path, "Invalid type: expected string or null")]

/-- z.enum(vals) applied to a field that may be absent. -/
def zodEnum (vals : List String) (path : List String) :
    Option Json → Except (List Issue) Json
  | none => .error [(path, "Required")]
  | some (.str s) => if s ∈ vals then .ok (.str s) else .error [(path, "Invalid enum value")]
  | some _ => .error [(path, "Invalid type: expected enum")]

/-- z.enum(vals).nullable() applied to a field that may be absent. -/
def zodNullableEnum (vals : List String) (path : List String) :
    Option Json → Except (List Issue) Json
  | none => .error [(path, "Required")]
  | some .null => .ok .null
  | some (.str s) => if s ∈ vals then .ok (.str s) else .error [(path, "Invalid enum value")]
  | some _ => .error [(path, "Invalid type: expected enum or null")]

/-- z.literal(lit) for a string literal, applied to a field that may be absent. -/
def zodLiteral (lit : String) (path : List String) :
    Option Json → Except (List Issue) Json
  | none => .error [(path, "Required")]
  | some (.str s) => if s = lit then .ok (.str s) else .error [(path, "Invalid literal value")]
  | some _ => .error [(path, "Invalid literal value")]

/-- z.string().optional(): an absent field is accepted and stays absent. -/
def zodOptionalString (path : List String) :
    Option Json → Except (List Issue) (Option Json)
  | none => .ok none
  | some (.str s) => .ok (some (.str s))
  | some _ => .error [(path, "Invalid type: expected string")]

/-- z.boolean().optional(): an absent field is accepted and stays absent. -/
def zodOptionalBoolean (path : List String) :
    Option Json → Except (List Issue) (Option Json)
  | none => .ok none
  | some (.bool b) => .ok (some (.bool b))
  | some _ => .error [(path, "Invalid type: expected boolean")]

/-- The elements of z.array(z.string()), indexed from i for the issue paths. -/
def zodStringList (path : List String) (i : Nat) :
    List Json → Except (List Issue) (List Json)
  | [] => .ok []
  | x :: xs =>
    match zodString (path ++ [toString i]) (some x), zodStringList path (i + 1) xs with
    | .ok v, .ok vs => .ok (v :: vs)
    | a, b => .error (errsOf a ++ errsOf b)

/-- z.array(z.string()) applied to a field that may be absent. -/
def zodStringArray (path : List String) : Option Json → Except (List Issue) Json
  | none => .error [(path, "Required")]
  | some (.arr items) =>
    match zodStringList path 0 items with
    | .ok vs => .ok (.arr vs)
    | .error l => .error l
  | some _ => .error [(path, "Invalid type: expected array")]

/-- ContentCompliance.parse: the zod object schema of the compliance script, with a
boolean flag, a nullable category enum and a nullable explanation string. -/
def ContentCompliance.parse (v : Json) : Except (List Issue) Json :=
  match v with
  | .obj entries =>
    let f1 := zodBoolean ["is_violating"] (lookupField "is_violating" entries)
    let f2 := zodNullableEnum ["violence", "sexual", "self_harm"] ["category"]
      (lookupField "category" entries)
    let f3 := zodNullableString ["explanation_if_violating"]
      (lookupField "explanation_if_violating" entries)
    match f1, f2, f3 with
    | .ok v1, .ok v2, .ok v3 =>
      .ok (.obj [("is_violating", v1), ("category", v2), ("explanation_if_violating", v3)])
    | _, _, _ => .error (errsOf f1 ++ errsOf f2 ++ errsOf f3)
  | _ => .error [([], "Invalid type: expected object")]

/-- CookBook.parse: the zod object schema of the recipe script, with a name, a
cooking time and a list of ingredient strings. -/
def CookBook.parse (v : Json) : Except (List Issue) Json :=
  match v with
  | .obj entries =>
    let f1 := zodString ["name"] (lookupField "name" entries)
    let f2 := zodString ["timeToCook"] (lookupField "timeToCook" entries)
    let f3 := zodStringArray ["ingredients"] (lookupField "ingredients" entries)
    match f1, f2, f3 with
    | .ok v1, .ok v2, .ok v3 =>
      .ok (.obj [("name", v1), ("timeToCook", v2), ("ingredients", v3)])
    | _, _, _ => .error (errsOf f1 ++ errsOf f2 ++ errsOf f3)
  | _ => .error [([], "Invalid type: expected object")]

/-- The element-type enum of the CVElement zod schema. -/
def cvElementTypeEnum : List String :=
  ["section-header", "text-input", "textarea", "date-input", "email-input",
   "phone-input", "url-input", "bullet-list-item", "submit-button"]

/-- An optional field of a rebuilt object: present only when the input had it. -/
def optEntry (k : String) (o : Option Json) : List (String × Json) :=
  match o with
  | some v => [(k, v)]
  | none => []

/-- CVElement.parse: the zod object schema of one form element, at the given path. -/
def CVElement.parseAt (path : List String) (v : Json) : Except (List Issue) Json :=
  match v with
  | .obj entries =>
    let fType := zodEnum cvElementTypeEnum (path ++ ["type"]) (lookupField "type" entries)
    let fLabel := zodOptionalString (path ++ ["label"]) (lookupField "label" entries)
    let fName := zodOptionalString (path ++ ["name"]) (lookupField "name" entries)
    let fReq := zodOptionalBoolean (path ++ ["required"]) (lookupField "required" entries)
    let fPh := zodOptionalString (path ++ ["placeholder"]) (lookupField "placeholder" entries)
    let fVal := zodOptionalString (path ++ ["value"]) (lookupField "value" entries)
    match fType, fLabel, fName, fReq, fPh, fVal with
    | .ok tv, .ok lv, .ok nv, .ok rv, .ok pv, .ok vv =>
      .ok (.obj ([("type", tv)] ++ optEntry "label" lv ++ optEntry "name" nv
        ++ optEntry "required" rv ++ optEntry "placeholder" pv ++ optEntry "value" vv))
    | _, _, _, _, _, _ =>
      .error (errsOf fType ++ errsOf fLabel ++ errsOf fName ++ errsOf fReq
        ++ errsOf fPh ++ errsOf fVal)
  | _ => .error [(path, "Invalid type: expected object")]

/-- The elements of z.array(CVElement), indexed from i for the issue paths. -/
def zodElementList (i : Nat) : List Json → Except (List Issue) (List Json)
  | [] => .ok []
  | x :: xs =>
    match CVElement.parseAt ["elements", toString i] x, zodElementList (i + 1) xs with
    | .ok v, .ok vs => .ok (v :: vs)
    | a, b => .error (errsOf a ++ errsOf b)

/-- CVForm.parse: the zod object schema of the form-definition script, with the
literal discriminator tag and the element array. -/
def CVForm.parse (v : Json) : Except (List Issue) Json :=
  match v with
  | .obj entries =>
    let fType := zodLiteral "cv-form" ["type"] (lookupField "type" entries)
    let fElems : Except (List Issue) Json :=
      match lookupField "elements" entries with
      | none => .error [((["elements"] : List String), "Required")]
      | some (.arr items) =>
        match zodElementList 0 items with
        | .ok vs => .ok (Json.arr vs)
        | .error l => .error l
      | some _ => .error [((["elements"] : List String), "Invalid type: expected array")]
    match fType, fElems with
    | .ok tv, .ok ev => .ok (.obj [("type", tv), ("elements", ev)])
    | _, _ => .error (errsOf fType ++ errsOf fElems)
  | _ => .error [([], "Invalid type: expected object")]

/-! ## The pipelines -/

/-- JS truthiness of a possibly-absent string: undefined and the empty string are
falsy, every other string is truthy. -/
def truthyS : Option String → Bool
  | none => false
  | some s => if s = "" then false else true

/-- The whitespace class of JS String.prototype.trim and of the regexp \s. -/
def isJsSpace (c : Char) : Bool :=
  c = ' ' || c = '\t' || c = '\n' || c = '\r' ||
  c.toNat = 11 || c.toNat = 12 || c.toNat = 160 || c.toNat = 65279 ||
  c.toNat = 5760 || (8192 ≤ c.toNat && c.toNat ≤ 8202) ||
  c.toNat = 8232 || c.toNat = 8233 || c.toNat = 8239 || c.toNat = 8287 ||
  c.toNat = 12288

/-- JS String.prototype.trim. -/
def jsTrim (s : String) : String :=
  String.mk (((s.data.dropWhile isJsSpace).reverse.dropWhile isJsSpace).reverse)

/-- What the one network call can come back as: a thrown transport error, or a
response whose text payload is present or absent.  An absent payload stands for
every response shape the scripts reject before touching the text. -/
inductive CallOutcome where
  | failure (msg : String)
  | success (text : Option String)

/-- checkCompliance, from the text payload on: the falsy-text guard, brace
extraction, JSON.parse, and ContentCompliance validation, each failure giving the
no-result outcome. -/
def checkComplianceText (text : Option String) : Option Json :=
  if truthyS text = false then none
  else
    match text with
    | none => none
    | some t =>
      match extractCandidate t with
      | none => none
      | some jsonData =>
        match JSON.parse jsonData with
        | none => none
        | some parsedData =>
          match ContentCompliance.parse parsedData with
          | .ok v => some v
          | .error _ => none

/-- checkCompliance including the outer try/catch: a thrown transport error is
caught and gives the no-result outcome. -/
def checkCompliance : CallOutcome → Option Json
  | .failure _ => none
  | .success text => checkComplianceText text

/-- extractCook, from the text payload on: the response-shape guard, trim, brace
extraction, JSON.parse, and CookBook validation. -/
def extractCookText (text : Option String) : Option Json :=
  match text with
  | none => none
  | some raw =>
    let t := jsTrim raw
    match extractCandidate t with
    | none => none
    | some s =>
      match JSON.parse s with
      | none => none
      | some parsedData =>
        match CookBook.parse parsedData with
        | .ok v => some v
        | .error _ => none

/-- extractCook including the outer try/catch. -/
def extractCook : CallOutcome → Option Json
  | .failure _ => none
  | .success text => extractCookText text

/-- generateUI, from the text payload on: the falsy-text guard, brace extraction,
JSON.parse, and CVForm validation. -/
def generateUIText (text : Option String) : Option Json :=
  if truthyS text = false then none
  else
    match text with
    | none => none
    | some t =>
      match extractCandidate t with
      | none => none
      | some jsonData =>
        match JSON.parse jsonData with
        | none => none
        | some parsedData =>
          match CVForm.parse parsedData with
          | .ok v => some v
          | .error _ => none

/-- generateUI including the outer try/catch. -/
def generateUI : CallOutcome → Option Json
  | .failure _ => none
  | .success text => generateUIText text

/-- The failure classification of the extractCook pipeline: a thrown call, an
absent text payload, no JSON found, malformed JSON, or a schema violation. -/
def extractCookFails (o : CallOutcome) : Bool :=
  match o with
  | .failure _ => true
  | .success none => true
  | .success (some raw) =>
    match extractCandidate (jsTrim raw) with
    | none => true
    | some s =>
      match JSON.parse s with
      | none => true
      | some v =>
        match CookBook.parse v with
        | .ok _ => false
        | .error _ => true

/-- One script run, reduced to what the claims observe: the exit status and the
result of the pipeline.  A falsy credential exits with status 1 before any core
logic; otherwise the pipeline runs and the process exits with status 0, the
top-level catch having turned every failure into the no-result outcome. -/
def runExtractCookScript (apiKey : Option String) (o : CallOutcome) :
    Nat × Option Json :=
  if truthyS apiKey then (0, extractCook o) else (1, none)

/-! ## The structured-to-HTML renderer

convertToHTML appends string pieces to an accumulator while walking the element
list, with one piece of state: whether a bulleted list is currently open.  The
model records the appended pieces as a list of chunks, tagging the two list-tag
emissions so that emitted tags can be counted; the produced string is the fold of
the appends, exactly as in the source. -/

/-- One element of the validated form structure, as consumed by convertToHTML.
The type is an arbitrary string here (not the validated enum) because the renderer
itself handles unrecognized kinds. -/
structure CVElement where
  type : String
  label : Option String := none
  name : Option String := none
  required : Option Bool := none
  placeholder : Option String := none
  value : Option String := none
deriving Repr, DecidableEq

/-- The validated form structure: the discriminator tag and the element list. -/
structure CVForm where
  type : String
  elements : List CVElement
deriving Repr, DecidableEq

/-- One string appended to the html accumulator.  The two bulleted-list tags are
tagged so that emitted tags are countable; everything else is a plain piece. -/
inductive Chunk where
  | ulOpen
  | ulClose
  | piece (s : String)
deriving Repr, DecidableEq

/-- The text a chunk appends. -/
def Chunk.render : Chunk → String
  | ulOpen => "  <ul>\n"
  | ulClose => "  </ul>\n"
  | piece s => s

/-- JS (x || ""): an absent string becomes empty. -/
def orEmpty (o : Option String) : String := o.getD ""

/-- Collapse every maximal run of whitespace to a single hyphen, tracking whether
the previous character was whitespace.  Models .replace with the global regexp
matching whitespace runs, target "-". -/
def collapseWs : Bool → List Char → List Char
  | _, [] => []
  | prevSp, c :: cs =>
    if isJsSpace c then
      if prevSp then collapseWs true cs else '-' :: collapseWs true cs
    else c :: collapseWs false cs

/-- The fallback identifier: the label lowercased, whitespace runs collapsed to
single hyphens.  (Lowercasing is per character; the labels at stake are ASCII.) -/
def slug (s : String) : String :=
  String.mk (collapseWs false (s.data.map Char.toLower))

/-- The identifier used for the label's for-attribute and the control's id:
the element's name when truthy, else the slug of its label. -/
def derivedId (e : CVElement) : String :=
  if truthyS e.name then orEmpty e.name else slug (orEmpty e.label)

/-- The six input-like kinds that share one switch body in the source. -/
def inputKinds : List String :=
  ["text-input", "textarea", "date-input", "email-input", "phone-input", "url-input"]

/-- The kinds the switch statement recognizes. -/
def knownKinds : List String :=
  ["section-header", "text-input", "textarea", "date-input", "email-input",
   "phone-input", "url-input", "bullet-list-item", "submit-button"]

/-- Replace the first occurrence of a pattern in a character list.  Models JS
String.prototype.replace with a plain-string pattern. -/
def replaceFirstAux (p r : List Char) : List Char → List Char
  | [] => []
  | c :: cs =>
    if p.isPrefixOf (c :: cs) then r ++ (c :: cs).drop p.length
    else c :: replaceFirstAux p r cs

/-- JS String.prototype.replace with a plain-string pattern: first occurrence only. -/
def replaceFirst (s pat repl : String) : String :=
  String.mk (replaceFirstAux pat.data repl.data s.data)

/-- The chunk that closes an open bulleted list, when one is open. -/
def closeList (inList : Bool) : List Chunk :=
  if inList then [Chunk.ulClose] else []

/-- The pieces of an input-like element's field block: the wrapping div, the label
line when the label is truthy, the control opening with its type, the name, id,
required and placeholder attributes under their truthiness guards, the control
closing, and the closing div. -/
def inputChunks (e : CVElement) : List Chunk :=
  let inputType := replaceFirst e.type "-input" ""
  [Chunk.piece "  <div class=\"form-field\">\n"]
  ++ (if truthyS e.label then
        [Chunk.piece ("    <label for=\"" ++ derivedId e ++ "\">"
          ++ orEmpty e.label ++ "</label>\n")]
      else [])
  ++ [Chunk.piece (if e.type = "textarea" then "    <textarea"
        else "    <input type=\"" ++ inputType ++ "\"")]
  ++ (if truthyS e.name then [Chunk.piece (" name=\"" ++ orEmpty e.name ++ "\"")] else [])
  ++ (if truthyS e.label then [Chunk.piece (" id=\"" ++ derivedId e ++ "\"")] else [])
  ++ (if e.required = some true then [Chunk.piece " required"] else [])
  ++ (if truthyS e.placeholder then
        [Chunk.piece (" placeholder=\"" ++ orEmpty e.placeholder ++ "\"")]
      else [])
  ++ [Chunk.piece (if e.type = "textarea" then "></textarea>\n" else ">\n")]
  ++ [Chunk.piece "  </div>\n"]

/-- The pieces of the submit control. -/
def submitChunks (e : CVElement) : List Chunk :=
  [Chunk.piece "  <button type=\"submit\""]
  ++ (if truthyS e.name then [Chunk.piece (" name=\"" ++ orEmpty e.name ++ "\"")] else [])
  ++ [Chunk.piece (">" ++ (if truthyS e.label then orEmpty e.label else "Submit")
        ++ "</button>\n")]

/-- One switch dispatch of convertToHTML: the chunks appended for the element, the
list state afterwards, and the diagnostic notices issued. -/
def renderElem (e : CVElement) (inList : Bool) : List Chunk × Bool × List String :=
  if e.type = "section-header" then
    (closeList inList ++ [Chunk.piece ("  <h2>" ++ orEmpty e.label ++ "</h2>\n")],
     false, [])
  else if e.type ∈ inputKinds then
    (closeList inList ++ inputChunks e, false, [])
  else if e.type = "bullet-list-item" then
    ((if inList then [] else [Chunk.ulOpen])
      ++ [Chunk.piece ("    <li>" ++ orEmpty e.value ++ "</li>\n")],
     true, [])
  else if e.type = "submit-button" then
    (closeList inList ++ submitChunks e, false, [])
  else
    ([], inList, ["Unknown element type: " ++ e.type])

/-- The forEach loop of convertToHTML over the element list. -/
def renderList : List CVElement → Bool → List Chunk × Bool × List String
  | [], inList => ([], inList, [])
  | e :: es, inList =>
    let p := renderElem e inList
    let q := renderList es p.2.1
    (p.1 ++ q.1, q.2.1, p.2.2 ++ q.2.2)

/-- The text of a chunk sequence, in order. -/
def chunksJoin : List Chunk → String
  | [] => ""
  | c :: cs => c.render ++ chunksJoin cs

/-- Every append convertToHTML performs, in order: the opening form tag, the
element chunks, the close of a list still open at end of sequence, and the closing
form tag.  (The length guard on the element array only skips an empty loop.) -/
def convertChunks (ui : CVForm) : List Chunk :=
  let p := renderList ui.elements false
  [Chunk.piece "<form class=\"cv-form\">\n"] ++ p.1
    ++ (if p.2.1 then [Chunk.ulClose] else []) ++ [Chunk.piece "</form>\n"]

/-- convertToHTML: the accumulated html string. -/
def convertToHTML (ui : CVForm) : String :=
  chunksJoin (convertChunks ui)

/-- The diagnostic notices convertToHTML issues, in order. -/
def convertWarnings (ui : CVForm) : List String :=
  (renderList ui.elements false).2.2

/-! ## Spec-side shape predicates

For the round-trip claim, "a payload matching the SchemaDescriptor" is modelled
from the spec's words: every required field present and correctly typed, enum
fields restricted to their declared sets, nullable fields possibly null, and no
unknown shape — i.e. exactly the declared fields, in declaration order. -/

/-- An allowed value of the nullable category enum. -/
def isCategoryVal : Json → Bool
  | .null => true
  | .str s => decide (s ∈ ["violence", "sexual", "self_harm"])
  | _ => false

/-- A value that is null or a string. -/
def isNullableStrVal : Json → Bool
  | .null => true
  | .str _ => true
  | _ => false

/-- A string value. -/
def isStrVal : Json → Bool
  | .str _ => true
  | _ => false

/-- Modelled from the spec: a parsed payload conforming exactly to the compliance
SchemaDescriptor, a boolean flag, a nullable category enum and a nullable
explanation. -/
def matchesContentCompliance : Json → Bool
  | .obj [("is_violating", .bool _), ("category", c), ("explanation_if_violating", e)] =>
    isCategoryVal c && isNullableStrVal e
  | _ => false

/-- Modelled from the spec: a parsed payload conforming exactly to the recipe
SchemaDescriptor, a name, a duration and a list of ingredient strings. -/
def matchesCookBook : Json → Bool
  | .obj [("name", .str _), ("timeToCook", .str _), ("ingredients", .arr items)] =>
    items.all isStrVal
  | _ => false

/-- One string occurs inside another. -/
def strContains (hay pat : String) : Prop :=
  ∃ a b : String, hay = a ++ pat ++ b

/-- Step.parse: the zod object schema of one guide step, at the given path, with an
explanation string and an output string. -/
def Step.parseAt (path : List String) (v : Json) : Except (List Issue) Json :=
  match v with
  | .obj entries =>
    let f1 := zodString (path ++ ["explanation"]) (lookupField "explanation" entries)
    let f2 := zodString (path ++ ["output"]) (lookupField "output" entries)
    match f1, f2 with
    | .ok v1, .ok v2 => .ok (.obj [("explanation", v1), ("output", v2)])
    | _, _ => .error (errsOf f1 ++ errsOf f2)
  | _ => .error [(path, "Invalid type: expected object")]

/-- The elements of z.array(Step), indexed from i for the issue paths. -/
def zodStepList (i : Nat) : List Json → Except (List Issue) (List Json)
  | [] => .ok []
  | x :: xs =>
    match Step.parseAt ["steps", toString i] x, zodStepList (i + 1) xs with
    | .ok v, .ok vs => .ok (v :: vs)
    | a, b => .error (errsOf a ++ errsOf b)

/-- GuideSteps.parse: the zod object schema of the step-guide script, a list of
steps. -/
def GuideSteps.parse (v : Json) : Except (List Issue) Json :=
  match v with
  | .obj entries =>
    match lookupField "steps" entries with
    | none => .error [((["steps"] : List String), "Required")]
    | some (.arr items) =>
      match zodStepList 0 items with
      | .ok vs => .ok (.obj [("steps", Json.arr vs)])
      | .error l => .error l
    | some _ => .error [((["steps"] : List String), "Invalid type: expected array")]
  | _ => .error [([], "Invalid type: expected object")]

/-- extractStructuredData, from the text payload on: the response-shape guard,
trim, brace extraction, JSON.parse, and GuideSteps validation. -/
def extractStructuredDataText (text : Option String) : Option Json :=
  match text with
  | none => none
  | some raw =>
    let t := jsTrim raw
    match extractCandidate t with
    | none => none
    | some s =>
      match JSON.parse s with
      | none => none
      | some parsedData =>
        match GuideSteps.parse parsedData with
        | .ok v => some v
        | .error _ => none

/-- extractStructuredData including the outer try/catch. -/
def extractStructuredData : CallOutcome → Option Json
  | .failure _ => none
  | .success text => extractStructuredDataText text

/-- A boolean value. -/
def isBoolVal : Json → Bool
  | .bool _ => true
  | _ => false

/-- The entry list of a form element conforming exactly to the CVElement
SchemaDescriptor: the type tag first, then whichever of the optional fields are
present, in declaration order, each correctly typed. -/
def cvElemEntries (t : String) (lb nm : Option String) (rq : Option Bool)
    (ph vl : Option String) : List (String × Json) :=
  [("type", Json.str t)]
    ++ optEntry "label" (lb.map Json.str)
    ++ optEntry "name" (nm.map Json.str)
    ++ optEntry "required" (rq.map Json.bool)
    ++ optEntry "placeholder" (ph.map Json.str)
    ++ optEntry "value" (vl.map Json.str)

/-- Modelled from the spec: a parsed element conforming exactly to the CVElement
SchemaDescriptor, its type drawn from the declared enum. -/
def matchesCVElementSpec (x : Json) : Prop :=
  ∃ t lb nm rq ph vl, t ∈ cvElementTypeEnum ∧
    x = Json.obj (cvElemEntries t lb nm rq ph vl)

/-- Modelled from the spec: a parsed payload conforming exactly to the
form-definition SchemaDescriptor, the literal discriminator tag and a list of
conforming elements. -/
def matchesCVFormSpec (v : Json) : Prop :=
  ∃ items, v = Json.obj [("type", Json.str "cv-form"), ("elements", Json.arr items)] ∧
    ∀ x ∈ items, matchesCVElementSpec x

/-- A parsed step conforming exactly to the Step SchemaDescriptor. -/
def matchesStep : Json → Bool
  | .obj [("explanation", .str _), ("output", .str _)] => true
  | _ => false

/-- Modelled from the spec: a parsed payload conforming exactly to the step-guide
SchemaDescriptor, a list of explanation/output pairs. -/
def matchesGuideSteps : Json → Bool
  | .obj [("steps", .arr items)] => items.all matchesStep
  | _ => false


/-! ## Helper lemmas -/

theorem strAppend_assoc (a b c : String) : a ++ b ++ c = a ++ (b ++ c) := by
  cases a with
  | mk la =>
    cases b with
    | mk lb =>
      cases c with
      | mk lc => exact congrArg String.mk (List.append_assoc la lb lc)

theorem strContains_here (a p b : String) : strContains (a ++ p ++ b) p :=
  ⟨a, b, rfl⟩

theorem strContains_left (s t p : String) (h : strContains s p) :
    strContains (s ++ t) p := by
  obtain ⟨a, b, rfl⟩ := h
  exact ⟨a, b ++ t, strAppend_assoc (a ++ p) b t⟩

theorem strContains_right (s t p : String) (h : strContains t p) :
    strContains (s ++ t) p := by
  obtain ⟨a, b, rfl⟩ := h
  exact ⟨s ++ a, b, by simp [strAppend_assoc]⟩

theorem chunksJoin_append (a b : List Chunk) :
    chunksJoin (a ++ b) = chunksJoin a ++ chunksJoin b := by
  induction a with
  | nil => simp [chunksJoin]
  | cons c cs ih => simp [chunksJoin, ih, strAppend_assoc]

theorem renderList_append : ∀ (xs ys : List CVElement) (inL : Bool),
    renderList (xs ++ ys) inL =
      ((renderList xs inL).1 ++ (renderList ys (renderList xs inL).2.1).1,
       (renderList ys (renderList xs inL).2.1).2.1,
       (renderList xs inL).2.2 ++ (renderList ys (renderList xs inL).2.1).2.2)
  | [], ys, inL => by simp [renderList]
  | e :: xs, ys, inL => by
    simp [renderList, renderList_append xs ys, List.append_assoc]

theorem idxAux_none (c : Char) : ∀ l : List Char, idxAux c l = none ↔ ¬ c ∈ l
  | [] => by simp [idxAux]
  | d :: ds => by
    by_cases h : d = c
    · simp [idxAux, h]
    · simp only [idxAux, if_neg h, Option.map_eq_none', idxAux_none c ds,
        List.mem_cons, not_or]
      constructor
      · intro hnd
        exact ⟨fun hc => h hc.symm, hnd⟩
      · intro hp
        exact hp.2

theorem lastIdxAux_none (c : Char) : ∀ l : List Char, lastIdxAux c l = none ↔ ¬ c ∈ l
  | [] => by simp [lastIdxAux]
  | d :: ds => by
    have ih := lastIdxAux_none c ds
    cases hrec : lastIdxAux c ds with
    | some n =>
      have hm : c ∈ ds := by
        by_contra hc
        have hn := ih.mpr hc
        rw [hn] at hrec
        exact Option.noConfusion hrec
      simp [lastIdxAux, hrec, hm]
    | none =>
      have hds : ¬ c ∈ ds := ih.mp hrec
      by_cases h : d = c
      · simp [lastIdxAux, hrec, h]
      · simp only [lastIdxAux, hrec, if_neg h, List.mem_cons, not_or]
        constructor
        · intro _
          exact ⟨fun hc => h hc.symm, hds⟩
        · intro _
          trivial

/-! ## The claims -/

/-- Claim C2: for any raw text with no opening brace, or no closing brace, or whose
first opening brace does not come strictly before its last closing brace, extraction
fails (the guard takes the no-JSON branch before any parsing) and the pipeline
returns the no-result outcome. -/
theorem claim_C2_noJsonFound (t : String)
    (h : ¬ '\x7b' ∈ t.data ∨ ¬ '\x7d' ∈ t.data ∨
      jsIndexOf t '\x7b' ≥ jsLastIndexOf t '\x7d') :
    extractCandidate t = none ∧ checkComplianceText (some t) = none := by
  have hext : extractCandidate t = none := by
    unfold extractCandidate
    rcases h with h | h | h
    · rw [if_pos (Or.inl (by unfold jsIndexOf; rw [(idxAux_none _ _).mpr h]))]
    · rw [if_pos (Or.inr (Or.inl (by unfold jsLastIndexOf; rw [(lastIdxAux_none _ _).mpr h])))]
    · rw [if_pos (Or.inr (Or.inr h))]
  refine ⟨hext, ?_⟩
  by_cases ht : t = ""
  · subst ht; rfl
  · simp [checkComplianceText, truthyS, ht, hext]

/-- Claim C2 witness: a concrete text with reversed braces. -/
theorem claim_C2_noJsonFound_witness :
    extractCandidate "\x7d oops \x7b" = none ∧
      checkComplianceText (some "\x7d oops \x7b") = none :=
  claim_C2_noJsonFound "\x7d oops \x7b" (by decide)

/-- Claim C4: the candidate payload is the inclusive substring of the raw text from
the first opening brace to the last closing brace; and on the spec's example text the
pipeline yields the stated compliance object. -/
theorem claim_C4_substringExtraction :
    (∀ (t : String) (i j : Nat),
      jsIndexOf t '\x7b' = (i : Int) → jsLastIndexOf t '\x7d' = (j : Int) → i < j →
      extractCandidate t = some (substringJs t i (j + 1))) ∧
    checkComplianceText
        (some "Sure! \x7b\"is_violating\":false,\"category\":null,\"explanation_if_violating\":null\x7d Hope that helps.") =
      some (Json.obj [("is_violating", Json.bool false), ("category", Json.null),
        ("explanation_if_violating", Json.null)]) := by
  constructor
  · intro t i j h1 h2 hij
    unfold extractCandidate
    rw [h1, h2, if_neg]
    · simp
    · simp only [not_or]
      refine ⟨by omega, by omega, by
        simp only [ge_iff_le, not_le]
        exact_mod_cast hij⟩
  · rfl

/-- Claim C4 witness: the general substring conjunct applied at a concrete text. -/
theorem claim_C4_substringExtraction_witness :
    extractCandidate "a\x7bc\x7d" = some (substringJs "a\x7bc\x7d" 1 4) :=
  claim_C4_substringExtraction.1 "a\x7bc\x7d" 1 3 (by decide) (by decide) (by decide)

/-- Claim C8: the renderer is a pure, deterministic function of the element
sequence, and rendering is compositional in the input order: the output for a
concatenation is the output for the front followed by the output for the back,
started in the list state the front ends in. -/
theorem claim_C8_deterministic :
    (∀ ui : CVForm, convertToHTML ui = convertToHTML ui) ∧
    (∀ (xs ys : List CVElement) (inL : Bool),
      renderList (xs ++ ys) inL =
        ((renderList xs inL).1 ++ (renderList ys (renderList xs inL).2.1).1,
         (renderList ys (renderList xs inL).2.1).2.1,
         (renderList xs inL).2.2 ++ (renderList ys (renderList xs inL).2.1).2.2)) :=
  ⟨fun _ => rfl, renderList_append⟩

/-- Claim C5: consecutive bulleted-list items are grouped into one list container and
any recognized non-list element closes an open grouping first: on the spec's example
sequence the renderer emits a heading, one list holding exactly the two items, and
the submit control after the list is closed; moreover a bullet item rendered while a
list is open adds no new list container, and every other recognized kind rendered
while a list is open emits the list-closing tag before its own markup. -/
theorem claim_C5_listGrouping :
    convertToHTML ⟨"cv-form",
      [{ type := "section-header", label := some "Skills" },
       { type := "bullet-list-item", value := some "Go" },
       { type := "bullet-list-item", value := some "Rust" },
       { type := "submit-button", label := some "Send" }]⟩ =
      "<form class=\"cv-form\">\n  <h2>Skills</h2>\n  <ul>\n    <li>Go</li>\n    <li>Rust</li>\n  </ul>\n  <button type=\"submit\">Send</button>\n</form>\n" ∧
    (∀ (e : CVElement) (inL : Bool), e.type = "bullet-list-item" →
      renderElem e inL =
        ((if inL then [] else [Chunk.ulOpen])
          ++ [Chunk.piece ("    <li>" ++ orEmpty e.value ++ "</li>\n")], true, [])) ∧
    (∀ e : CVElement, e.type ∈ knownKinds → e.type ≠ "bullet-list-item" →
      ∃ rest, renderElem e true = (Chunk.ulClose :: rest, false, [])) := by
  refine ⟨by rfl, ?_, ?_⟩
  · intro e inL h
    simp [renderElem, h, inputKinds]
  · intro e hmem hne
    simp only [knownKinds, List.mem_cons, List.not_mem_nil, or_false] at hmem
    rcases hmem with h | h | h | h | h | h | h | h | h
    · exact ⟨[Chunk.piece ("  <h2>" ++ orEmpty e.label ++ "</h2>\n")],
        by simp [renderElem, h, closeList]⟩
    · exact ⟨inputChunks e, by simp [renderElem, h, inputKinds, closeList]⟩
    · exact ⟨inputChunks e, by simp [renderElem, h, inputKinds, closeList]⟩
    · exact ⟨inputChunks e, by simp [renderElem, h, inputKinds, closeList]⟩
    · exact ⟨inputChunks e, by simp [renderElem, h, inputKinds, closeList]⟩
    · exact ⟨inputChunks e, by simp [renderElem, h, inputKinds, closeList]⟩
    · exact ⟨inputChunks e, by simp [renderElem, h, inputKinds, closeList]⟩
    · exact absurd h hne
    · exact ⟨submitChunks e, by simp [renderElem, h, inputKinds, closeList]⟩

/-- Claim C5 witness: the bullet-grouping conjuncts applied to concrete elements. -/
theorem claim_C5_listGrouping_witness :
    renderElem { type := "bullet-list-item", value := some "Go" } true =
      ([Chunk.piece "    <li>Go</li>\n"], true, []) ∧
    ∃ rest, renderElem { type := "submit-button", label := some "Send" } true =
      (Chunk.ulClose :: rest, false, []) :=
  ⟨claim_C5_listGrouping.2.1 { type := "bullet-list-item", value := some "Go" } true rfl,
   claim_C5_listGrouping.2.2 { type := "submit-button", label := some "Send" }
     (by decide) (by decide)⟩

/-- Claim C9: an element of unrecognized kind is skipped with a diagnostic notice
and changes nothing else, so the remaining elements render exactly as if it were
absent; and every type the CVElement enum admits is a recognized kind, so this
branch is unreachable for schema-validated input. -/
theorem claim_C9_unknownKind :
    (∀ (tag : String) (xs ys : List CVElement) (e : CVElement),
      ¬ e.type ∈ knownKinds →
      convertToHTML ⟨tag, xs ++ e :: ys⟩ = convertToHTML ⟨tag, xs ++ ys⟩ ∧
      ("Unknown element type: " ++ e.type) ∈ convertWarnings ⟨tag, xs ++ e :: ys⟩) ∧
    (∀ t : String, t ∈ cvElementTypeEnum → t ∈ knownKinds) := by
  constructor
  · intro tag xs ys e hmem
    have h1 : e.type ≠ "section-header" := by
      intro h
      exact hmem (by rw [h]; decide)
    have h2 : ¬ e.type ∈ inputKinds := by
      intro h
      apply hmem
      simp only [inputKinds, List.mem_cons, List.not_mem_nil, or_false] at h
      rcases h with h | h | h | h | h | h <;> rw [h] <;> decide
    have h3 : e.type ≠ "bullet-list-item" := by
      intro h
      exact hmem (by rw [h]; decide)
    have h4 : e.type ≠ "submit-button" := by
      intro h
      exact hmem (by rw [h]; decide)
    have he : ∀ inL, renderElem e inL = ([], inL, ["Unknown element type: " ++ e.type]) := by
      intro inL
      simp [renderElem, h1, h2, h3, h4]
    constructor
    · unfold convertToHTML convertChunks
      rw [renderList_append xs (e :: ys), renderList_append xs ys]
      simp [renderList, he]
    · unfold convertWarnings
      rw [renderList_append xs (e :: ys)]
      simp [renderList, he]
  · intro t ht
    exact ht

/-- Claim C9 witness: a concrete unrecognized element amid recognized ones. -/
theorem claim_C9_unknownKind_witness :
    convertToHTML ⟨"cv-form",
      [{ type := "section-header", label := some "A" }, { type := "mystery" }]⟩ =
      convertToHTML ⟨"cv-form", [{ type := "section-header", label := some "A" }]⟩ ∧
    "Unknown element type: mystery" ∈ convertWarnings ⟨"cv-form",
      [{ type := "section-header", label := some "A" }, { type := "mystery" }]⟩ :=
  claim_C9_unknownKind.1 "cv-form" [{ type := "section-header", label := some "A" }]
    [] { type := "mystery" } (by decide)

theorem ulOpen_notMem_inputChunks (e : CVElement) : ¬ Chunk.ulOpen ∈ inputChunks e := by
  unfold inputChunks
  split_ifs <;> simp

theorem ulClose_notMem_inputChunks (e : CVElement) : ¬ Chunk.ulClose ∈ inputChunks e := by
  unfold inputChunks
  split_ifs <;> simp

theorem ulOpen_notMem_submitChunks (e : CVElement) : ¬ Chunk.ulOpen ∈ submitChunks e := by
  unfold submitChunks
  split_ifs <;> simp

theorem ulClose_notMem_submitChunks (e : CVElement) : ¬ Chunk.ulClose ∈ submitChunks e := by
  unfold submitChunks
  split_ifs <;> simp

theorem renderElem_balance (e : CVElement) (inL : Bool) :
    ((renderElem e inL).1.count Chunk.ulClose) + (if (renderElem e inL).2.1 then 1 else 0)
      = ((renderElem e inL).1.count Chunk.ulOpen) + (if inL then 1 else 0) := by
  cases inL <;>
    · unfold renderElem closeList
      split_ifs <;>
        simp_all [List.count_append, List.count_cons,
          List.count_eq_zero.mpr (ulOpen_notMem_inputChunks e),
          List.count_eq_zero.mpr (ulClose_notMem_inputChunks e),
          List.count_eq_zero.mpr (ulOpen_notMem_submitChunks e),
          List.count_eq_zero.mpr (ulClose_notMem_submitChunks e)]

theorem renderList_balance : ∀ (es : List CVElement) (inL : Bool),
    ((renderList es inL).1.count Chunk.ulClose)
        + (if (renderList es inL).2.1 then 1 else 0)
      = ((renderList es inL).1.count Chunk.ulOpen) + (if inL then 1 else 0)
  | [], inL => by simp [renderList]
  | e :: es, inL => by
    have h1 := renderElem_balance e inL
    have h2 := renderList_balance es (renderElem e inL).2.1
    simp only [renderList, List.count_append]
    omega

/-- Claim C10: for every input the output is the opening form tag, a body, and the
closing form tag (each tag followed by its newline), and the renderer emits as many
list-opening tags as list-closing tags, a list still open at end of sequence being
closed before the form is closed. -/
theorem claim_C10_formBalance (ui : CVForm) :
    (∃ body : String,
      convertToHTML ui = "<form class=\"cv-form\">\n" ++ body ++ "</form>\n") ∧
    (convertChunks ui).count Chunk.ulOpen = (convertChunks ui).count Chunk.ulClose := by
  constructor
  · refine ⟨chunksJoin ((renderList ui.elements false).1
      ++ (if (renderList ui.elements false).2.1 then [Chunk.ulClose] else [])), ?_⟩
    unfold convertToHTML convertChunks
    simp [chunksJoin_append, chunksJoin, Chunk.render, strAppend_assoc,
      String.append_empty]
  · have hb := renderList_balance ui.elements false
    unfold convertChunks
    cases hin : (renderList ui.elements false).2.1
    all_goals rw [hin] at hb
    all_goals simp [hin, List.count_append, List.count_cons] at hb ⊢
    all_goals omega

/-- Claim C6: a falsy credential terminates with status 1 before any core logic;
with a credential present the process always exits with status 0, every classified
failure of the pipeline (thrown call, absent text, no JSON, malformed JSON, schema
violation) yielding the no-result outcome, and on unclassified runs the pipeline
produces a value — the pipeline is total, so nothing escapes the entry point. -/
theorem claim_C6_failureHandling :
    (∀ (k : Option String) (o : CallOutcome), truthyS k = false →
      runExtractCookScript k o = (1, none)) ∧
    (∀ (k : Option String) (o : CallOutcome), truthyS k = true →
      (runExtractCookScript k o).1 = 0) ∧
    (∀ (k : Option String) (o : CallOutcome), truthyS k = true →
      extractCookFails o = true → runExtractCookScript k o = (0, none)) ∧
    (∀ o : CallOutcome, extractCookFails o = false → ∃ v, extractCook o = some v) := by
  refine ⟨?_, ?_, ?_, ?_⟩
  · intro k o h
    simp [runExtractCookScript, h]
  · intro k o h
    simp [runExtractCookScript, h]
  · intro k o h hf
    have hnone : extractCook o = none := by
      cases o with
      | failure m => rfl
      | success text =>
        cases text with
        | none => rfl
        | some raw =>
          simp only [extractCook, extractCookText]
          simp only [extractCookFails] at hf
          cases hex : extractCandidate (jsTrim raw) with
          | none => simp [hex]
          | some s =>
            simp only [hex] at hf ⊢
            cases hp : JSON.parse s with
            | none => simp [hp]
            | some v =>
              simp only [hp] at hf ⊢
              cases hc : CookBook.parse v with
              | ok w =>
                simp only [hc] at hf
                exact absurd hf (by simp)
              | error l => simp [hc]
    simp [runExtractCookScript, h, hnone]
  · intro o hf
    cases o with
    | failure m => simp [extractCookFails] at hf
    | success text =>
      cases text with
      | none => simp [extractCookFails] at hf
      | some raw =>
        simp only [extractCookFails] at hf
        simp only [extractCook, extractCookText]
        cases hex : extractCandidate (jsTrim raw) with
        | none =>
          simp only [hex] at hf
          exact absurd hf (by simp)
        | some s =>
          simp only [hex] at hf ⊢
          cases hp : JSON.parse s with
          | none =>
            simp only [hp] at hf
            exact absurd hf (by simp)
          | some v =>
            simp only [hp] at hf ⊢
            cases hc : CookBook.parse v with
            | error l =>
              simp only [hc] at hf
              exact absurd hf (by simp)
            | ok w => exact ⟨w, by simp [hc]⟩

/-- Claim C6 witness: a missing credential exits 1; a thrown call with a credential
present exits 0 with no result. -/
theorem claim_C6_failureHandling_witness :
    runExtractCookScript none (.success (some "x")) = (1, none) ∧
    runExtractCookScript (some "key") (.failure "network down") = (0, none) :=
  ⟨claim_C6_failureHandling.1 none (.success (some "x")) rfl,
   claim_C6_failureHandling.2.2.1 (some "key") (.failure "network down") rfl rfl⟩

theorem zodStringList_id : ∀ (items : List Json), items.all isStrVal = true →
    ∀ (p : List String) (i : Nat), zodStringList p i items = .ok items
  | [], _, _, _ => rfl
  | x :: xs, h, p, i => by
    simp only [List.all_cons, Bool.and_eq_true] at h
    obtain ⟨hx, hxs⟩ := h
    cases x with
    | str s =>
      have ih := zodStringList_id xs hxs p (i + 1)
      simp [zodStringList, zodString, ih]
    | null => exact absurd hx (by simp [isStrVal])
    | bool b => exact absurd hx (by simp [isStrVal])
    | num m => exact absurd hx (by simp [isStrVal])
    | arr l => exact absurd hx (by simp [isStrVal])
    | obj l => exact absurd hx (by simp [isStrVal])

theorem ContentCompliance_parse_id (v : Json)
    (h : matchesContentCompliance v = true) : ContentCompliance.parse v = .ok v := by
  unfold matchesContentCompliance at h
  split at h
  case h_2 => exact absurd h (by simp)
  case h_1 b c e =>
    simp only [Bool.and_eq_true] at h
    obtain ⟨h1, h2⟩ := h
    cases c with
    | null =>
      cases e with
      | null => rfl
      | str t => rfl
      | bool b2 => exact absurd h2 (by simp [isNullableStrVal])
      | num m => exact absurd h2 (by simp [isNullableStrVal])
      | arr l => exact absurd h2 (by simp [isNullableStrVal])
      | obj l => exact absurd h2 (by simp [isNullableStrVal])
    | str s =>
      have hs : s ∈ ["violence", "sexual", "self_harm"] := of_decide_eq_true h1
      cases e with
      | null =>
        simp [ContentCompliance.parse, lookupField, zodBoolean, zodNullableEnum,
          zodNullableString, hs]
      | str t =>
        simp [ContentCompliance.parse, lookupField, zodBoolean, zodNullableEnum,
          zodNullableString, hs]
      | bool b2 => exact absurd h2 (by simp [isNullableStrVal])
      | num m => exact absurd h2 (by simp [isNullableStrVal])
      | arr l => exact absurd h2 (by simp [isNullableStrVal])
      | obj l => exact absurd h2 (by simp [isNullableStrVal])
    | bool b2 => exact absurd h1 (by simp [isCategoryVal])
    | num m => exact absurd h1 (by simp [isCategoryVal])
    | arr l => exact absurd h1 (by simp [isCategoryVal])
    | obj l => exact absurd h1 (by simp [isCategoryVal])

theorem CookBook_parse_id (v : Json) (h : matchesCookBook v = true) :
    CookBook.parse v = .ok v := by
  unfold matchesCookBook at h
  split at h
  case h_2 => exact absurd h (by simp)
  case h_1 n tc items =>
    simp [CookBook.parse, lookupField, zodString, zodStringArray,
      zodStringList_id items h]

theorem Step_parseAt_id (x : Json) (h : matchesStep x = true) (p : List String) :
    Step.parseAt p x = .ok x := by
  unfold matchesStep at h
  split at h
  case h_2 => exact absurd h (by simp)
  case h_1 a b => rfl

theorem zodStepList_id : ∀ (items : List Json), items.all matchesStep = true →
    ∀ (i : Nat), zodStepList i items = .ok items
  | [], _, _ => rfl
  | x :: xs, h, i => by
    simp only [List.all_cons, Bool.and_eq_true] at h
    obtain ⟨hx, hxs⟩ := h
    have ih := zodStepList_id xs hxs (i + 1)
    simp [zodStepList, Step_parseAt_id x hx, ih]

theorem GuideSteps_parse_id (v : Json) (h : matchesGuideSteps v = true) :
    GuideSteps.parse v = .ok v := by
  unfold matchesGuideSteps at h
  split at h
  case h_2 => exact absurd h (by simp)
  case h_1 items =>
    simp [GuideSteps.parse, lookupField, zodStepList_id items h 0]

theorem CVElement_parseAt_id (p : List String) (t : String) (lb nm : Option String)
    (rq : Option Bool) (ph vl : Option String) (ht : t ∈ cvElementTypeEnum) :
    CVElement.parseAt p (.obj (cvElemEntries t lb nm rq ph vl))
      = .ok (.obj (cvElemEntries t lb nm rq ph vl)) := by
  cases lb <;> cases nm <;> cases rq <;> cases ph <;> cases vl <;>
    simp [CVElement.parseAt, cvElemEntries, optEntry, lookupField, zodEnum,
      zodOptionalString, zodOptionalBoolean, ht]

theorem zodElementList_id : ∀ (items : List Json) (i : Nat),
    (∀ x ∈ items, matchesCVElementSpec x) → zodElementList i items = .ok items
  | [], _, _ => rfl
  | x :: xs, i, h => by
    obtain ⟨t, lb, nm, rq, ph, vl, ht, rfl⟩ := h x (by simp)
    have ih := zodElementList_id xs (i + 1) (fun y hy => h y (by simp [hy]))
    simp [zodElementList, CVElement_parseAt_id _ t lb nm rq ph vl ht, ih]

theorem CVForm_parse_id (v : Json) (h : matchesCVFormSpec v) :
    CVForm.parse v = .ok v := by
  obtain ⟨items, rfl, hall⟩ := h
  simp [CVForm.parse, lookupField, zodLiteral, zodElementList_id items 0 hall]

/-- Claim C1: for every raw text whose extracted candidate parses to a payload
conforming exactly to the schema, the pipeline returns exactly that parsed payload,
with no further transformation — for the compliance, recipe, form-definition and
step-guide pipelines. -/
theorem claim_C1_roundTrip :
    (∀ (t s : String) (v : Json), extractCandidate t = some s →
      JSON.parse s = some v → matchesContentCompliance v = true →
      checkComplianceText (some t) = some v) ∧
    (∀ (t s : String) (v : Json), extractCandidate (jsTrim t) = some s →
      JSON.parse s = some v → matchesCookBook v = true →
      extractCookText (some t) = some v) ∧
    (∀ (t s : String) (v : Json), extractCandidate t = some s →
      JSON.parse s = some v → matchesCVFormSpec v →
      generateUIText (some t) = some v) ∧
    (∀ (t s : String) (v : Json), extractCandidate (jsTrim t) = some s →
      JSON.parse s = some v → matchesGuideSteps v = true →
      extractStructuredDataText (some t) = some v) := by
  refine ⟨?_, ?_, ?_, ?_⟩
  · intro t s v h1 h2 h3
    have ht : ¬ t = "" := by
      intro he
      subst he
      rw [show extractCandidate "" = none from rfl] at h1
      exact Option.noConfusion h1
    simp [checkComplianceText, truthyS, ht, h1, h2, ContentCompliance_parse_id v h3]
  · intro t s v h1 h2 h3
    simp [extractCookText, h1, h2, CookBook_parse_id v h3]
  · intro t s v h1 h2 h3
    have ht : ¬ t = "" := by
      intro he
      subst he
      rw [show extractCandidate "" = none from rfl] at h1
      exact Option.noConfusion h1
    simp [generateUIText, truthyS, ht, h1, h2, CVForm_parse_id v h3]
  · intro t s v h1 h2 h3
    simp [extractStructuredDataText, h1, h2, GuideSteps_parse_id v h3]

/-- Claim C1 witness: all four pipelines applied to concrete conforming payloads
embedded in prose return exactly the parsed payload. -/
theorem claim_C1_roundTrip_witness :
    checkComplianceText
        (some "ok \x7b\"is_violating\":true,\"category\":\"violence\",\"explanation_if_violating\":\"graffiti\"\x7d!") =
      some (.obj [("is_violating", .bool true), ("category", .str "violence"),
        ("explanation_if_violating", .str "graffiti")]) ∧
    extractCookText
        (some " \x7b\"name\":\"Eggs\",\"timeToCook\":\"5 min\",\"ingredients\":[\"eggs\"]\x7d") =
      some (.obj [("name", .str "Eggs"), ("timeToCook", .str "5 min"),
        ("ingredients", .arr [.str "eggs"])]) ∧
    generateUIText
        (some "ui \x7b\"type\":\"cv-form\",\"elements\":[\x7b\"type\":\"text-input\",\"label\":\"Name\"\x7d]\x7d") =
      some (.obj [("type", .str "cv-form"), ("elements", .arr
        [.obj [("type", .str "text-input"), ("label", .str "Name")]])]) ∧
    extractStructuredDataText
        (some " \x7b\"steps\":[\x7b\"explanation\":\"Acclimatize\",\"output\":\"Base camp\"\x7d]\x7d") =
      some (.obj [("steps", .arr [.obj [("explanation", .str "Acclimatize"),
        ("output", .str "Base camp")]])]) :=
  ⟨claim_C1_roundTrip.1
      "ok \x7b\"is_violating\":true,\"category\":\"violence\",\"explanation_if_violating\":\"graffiti\"\x7d!"
      "\x7b\"is_violating\":true,\"category\":\"violence\",\"explanation_if_violating\":\"graffiti\"\x7d"
      (.obj [("is_violating", .bool true), ("category", .str "violence"),
        ("explanation_if_violating", .str "graffiti")]) rfl rfl rfl,
   claim_C1_roundTrip.2.1
      " \x7b\"name\":\"Eggs\",\"timeToCook\":\"5 min\",\"ingredients\":[\"eggs\"]\x7d"
      "\x7b\"name\":\"Eggs\",\"timeToCook\":\"5 min\",\"ingredients\":[\"eggs\"]\x7d"
      (.obj [("name", .str "Eggs"), ("timeToCook", .str "5 min"),
        ("ingredients", .arr [.str "eggs"])]) rfl rfl rfl,
   claim_C1_roundTrip.2.2.1
      "ui \x7b\"type\":\"cv-form\",\"elements\":[\x7b\"type\":\"text-input\",\"label\":\"Name\"\x7d]\x7d"
      "\x7b\"type\":\"cv-form\",\"elements\":[\x7b\"type\":\"text-input\",\"label\":\"Name\"\x7d]\x7d"
      (.obj [("type", .str "cv-form"), ("elements", .arr
        [.obj [("type", .str "text-input"), ("label", .str "Name")]])]) rfl rfl
      ⟨[.obj [("type", .str "text-input"), ("label", .str "Name")]], rfl, by
        intro x hx
        simp only [List.mem_singleton] at hx
        subst hx
        exact ⟨"text-input", some "Name", none, none, none, none, by decide, rfl⟩⟩,
   claim_C1_roundTrip.2.2.2
      " \x7b\"steps\":[\x7b\"explanation\":\"Acclimatize\",\"output\":\"Base camp\"\x7d]\x7d"
      "\x7b\"steps\":[\x7b\"explanation\":\"Acclimatize\",\"output\":\"Base camp\"\x7d]\x7d"
      (.obj [("steps", .arr [.obj [("explanation", .str "Acclimatize"),
        ("output", .str "Base camp")]])]) rfl rfl rfl⟩

theorem zodElementList_err : ∀ (items : List Json) (i j : Nat) (x : Json) (l : List Issue),
    items.get? j = some x →
    CVElement.parseAt ["elements", toString (i + j)] x = .error l →
    ∃ L, zodElementList i items = .error L ∧ ∀ y ∈ l, y ∈ L
  | [], _, j, x, l, hg, _ => by simp at hg
  | z :: items, i, 0, x, l, hg, hp => by
    simp only [List.get?] at hg
    obtain rfl : z = x := Option.some.inj hg
    rw [Nat.add_zero] at hp
    simp only [zodElementList, hp]
    cases hr : zodElementList (i + 1) items with
    | ok vs =>
      refine ⟨_, rfl, ?_⟩
      intro y hy
      simp [errsOf, hy]
    | error L2 =>
      refine ⟨_, rfl, ?_⟩
      intro y hy
      simp [errsOf, hy]
  | z :: items, i, j + 1, x, l, hg, hp => by
    simp only [List.get?] at hg
    have harith : i + (j + 1) = (i + 1) + j := by omega
    rw [harith] at hp
    obtain ⟨L, hL, hmem⟩ := zodElementList_err items (i + 1) j x l hg hp
    simp only [zodElementList, hL]
    cases hz : CVElement.parseAt ["elements", toString i] z with
    | ok v =>
      refine ⟨_, rfl, ?_⟩
      intro y hy
      simp [errsOf, hmem y hy]
    | error l2 =>
      refine ⟨_, rfl, ?_⟩
      intro y hy
      simp [errsOf, hmem y hy]

theorem CVElement_parseAt_badType (p : List String) (xentries : List (String × Json))
    (s : String) (ht : lookupField "type" xentries = some (.str s))
    (hs : ¬ s ∈ cvElementTypeEnum) :
    ∃ l, CVElement.parseAt p (.obj xentries) = .error l ∧
      ((p ++ ["type"], "Invalid enum value") : Issue) ∈ l := by
  have hz : zodEnum cvElementTypeEnum (p ++ ["type"]) (some (.str s))
      = .error [((p ++ ["type"], "Invalid enum value") : Issue)] := by
    simp [zodEnum, hs]
  simp only [CVElement.parseAt, ht, hz]
  cases h2 : zodOptionalString (p ++ ["label"]) (lookupField "label" xentries) <;>
    cases h3 : zodOptionalString (p ++ ["name"]) (lookupField "name" xentries) <;>
      cases h4 : zodOptionalBoolean (p ++ ["required"]) (lookupField "required" xentries) <;>
        cases h5 : zodOptionalString (p ++ ["placeholder"]) (lookupField "placeholder" xentries) <;>
          cases h6 : zodOptionalString (p ++ ["value"]) (lookupField "value" xentries) <;>
            · refine ⟨_, rfl, ?_⟩
              simp [errsOf]

/-- Claim C3: a parsed value missing the required flag, or carrying it with a
non-boolean value, or carrying an out-of-set category, makes compliance validation
fail with an issue naming exactly that field, no validated value being produced;
and in the form schema an element whose type lies outside the enum makes validation
fail with an issue carrying the nested path of that element's type field. -/
theorem claim_C3_schemaViolation :
    (∀ entries : List (String × Json),
      lookupField "is_violating" entries = none →
      ∃ issues, ContentCompliance.parse (.obj entries) = .error issues ∧
        ((["is_violating"], "Required") : Issue) ∈ issues) ∧
    (∀ (entries : List (String × Json)) (j : Json),
      lookupField "is_violating" entries = some j → (∀ b, j ≠ .bool b) →
      ∃ issues, ContentCompliance.parse (.obj entries) = .error issues ∧
        ((["is_violating"], "Invalid type: expected boolean") : Issue) ∈ issues) ∧
    (∀ (entries : List (String × Json)) (s : String),
      lookupField "category" entries = some (.str s) →
      ¬ s ∈ ["violence", "sexual", "self_harm"] →
      ∃ issues, ContentCompliance.parse (.obj entries) = .error issues ∧
        ((["category"], "Invalid enum value") : Issue) ∈ issues) ∧
    (∀ (entries : List (String × Json)) (items : List Json) (j : Nat)
        (xentries : List (String × Json)) (s : String),
      lookupField "elements" entries = some (.arr items) →
      items.get? j = some (.obj xentries) →
      lookupField "type" xentries = some (.str s) →
      ¬ s ∈ cvElementTypeEnum →
      ∃ issues, CVForm.parse (.obj entries) = .error issues ∧
        ((["elements", toString j, "type"], "Invalid enum value") : Issue) ∈ issues) := by
  refine ⟨?_, ?_, ?_, ?_⟩
  · intro entries h
    simp only [ContentCompliance.parse, h, zodBoolean]
    cases h2 : zodNullableEnum ["violence", "sexual", "self_harm"] ["category"]
        (lookupField "category" entries) <;>
      cases h3 : zodNullableString ["explanation_if_violating"]
          (lookupField "explanation_if_violating" entries) <;>
        · refine ⟨_, rfl, ?_⟩
          simp [errsOf]
  · intro entries j h hj
    have hz : zodBoolean ["is_violating"] (some j)
        = .error [((["is_violating"], "Invalid type: expected boolean") : Issue)] := by
      cases j with
      | bool b => exact absurd rfl (hj b)
      | null => rfl
      | num m => rfl
      | str s => rfl
      | arr l => rfl
      | obj l => rfl
    simp only [ContentCompliance.parse, h, hz]
    cases h2 : zodNullableEnum ["violence", "sexual", "self_harm"] ["category"]
        (lookupField "category" entries) <;>
      cases h3 : zodNullableString ["explanation_if_violating"]
          (lookupField "explanation_if_violating" entries) <;>
        · refine ⟨_, rfl, ?_⟩
          simp [errsOf]
  · intro entries s h hs
    have hz : zodNullableEnum ["violence", "sexual", "self_harm"] ["category"]
        (some (.str s)) = .error [((["category"], "Invalid enum value") : Issue)] := by
      simp [zodNullableEnum, hs]
    simp only [ContentCompliance.parse, h, hz]
    cases h1 : zodBoolean ["is_violating"] (lookupField "is_violating" entries) <;>
      cases h3 : zodNullableString ["explanation_if_violating"]
          (lookupField "explanation_if_violating" entries) <;>
        · refine ⟨_, rfl, ?_⟩
          simp [errsOf]
  · intro entries items j xentries s he hg ht hs
    obtain ⟨l, hl, hmem⟩ :=
      CVElement_parseAt_badType ["elements", toString j] xentries s ht hs
    have hp : CVElement.parseAt ["elements", toString (0 + j)] (.obj xentries)
        = .error l := by
      rw [Nat.zero_add]
      exact hl
    obtain ⟨L, hL, hsub⟩ := zodElementList_err items 0 j (.obj xentries) l hg hp
    simp only [CVForm.parse, he, hL]
    cases hft : zodLiteral "cv-form" ["type"] (lookupField "type" entries) with
    | ok tv =>
      refine ⟨_, rfl, ?_⟩
      simp only [errsOf, List.nil_append]
      exact hsub _ hmem
    | error lt =>
      refine ⟨_, rfl, ?_⟩
      simp only [errsOf]
      exact List.mem_append_right _ (hsub _ hmem)

/-- Claim C3 witness: the four conjuncts applied at concrete violating payloads. -/
theorem claim_C3_schemaViolation_witness :
    (∃ issues, ContentCompliance.parse (.obj [("category", .null)]) = .error issues ∧
      ((["is_violating"], "Required") : Issue) ∈ issues) ∧
    (∃ issues, ContentCompliance.parse (.obj [("is_violating", .str "yes")])
        = .error issues ∧
      ((["is_violating"], "Invalid type: expected boolean") : Issue) ∈ issues) ∧
    (∃ issues, ContentCompliance.parse
        (.obj [("category", .str "gambling")]) = .error issues ∧
      ((["category"], "Invalid enum value") : Issue) ∈ issues) ∧
    (∃ issues, CVForm.parse (.obj [("type", .str "cv-form"),
        ("elements", .arr [.obj [("type", .str "blink-tag")]])]) = .error issues ∧
      ((["elements", "0", "type"], "Invalid enum value") : Issue) ∈ issues) := by
  refine ⟨claim_C3_schemaViolation.1 [("category", .null)] rfl,
    claim_C3_schemaViolation.2.1 [("is_violating", .str "yes")] (.str "yes") rfl ?_,
    claim_C3_schemaViolation.2.2.1 [("category", .str "gambling")] "gambling" rfl
      (by decide),
    ?_⟩
  · intro b h
    exact Json.noConfusion h
  · have := claim_C3_schemaViolation.2.2.2
      [("type", .str "cv-form"), ("elements", .arr [.obj [("type", .str "blink-tag")]])]
      [.obj [("type", .str "blink-tag")]] 0 [("type", .str "blink-tag")] "blink-tag"
      rfl rfl rfl (by decide)
    simpa using this

theorem strContains_pat (p : String) : strContains p p :=
  ⟨"", "", by rw [String.empty_append, String.append_empty]⟩

theorem inputChunks_for_id (e : CVElement) (hl : truthyS e.label = true) :
    strContains (chunksJoin (inputChunks e)) ("for=\"" ++ derivedId e ++ "\"") ∧
    strContains (chunksJoin (inputChunks e)) (" id=\"" ++ derivedId e ++ "\"") := by
  unfold inputChunks
  simp only [hl, if_true, List.append_eq, List.append_assoc, List.nil_append,
    List.cons_append, List.singleton_append, chunksJoin_append, chunksJoin,
    Chunk.render, String.append_empty]
  constructor
  · apply strContains_right
    apply strContains_left
    exact ⟨"    <label ", ">" ++ orEmpty e.label ++ "</label>\n", by
      simp only [show ("    <label for=\"" : String) = "    <label " ++ "for=\"" from rfl,
        show ("\">" : String) = "\"" ++ ">" from rfl, strAppend_assoc]⟩
  · apply strContains_right
    apply strContains_right
    apply strContains_right
    apply strContains_right
    apply strContains_left
    exact strContains_pat _

/-- Claim C7: for every input-like element whose label is truthy, the emitted label
carries a for-attribute and the emitted control an id attribute, both equal to the
derived identifier, which is the element's name when that is truthy (given and
nonempty) and otherwise the label lowercased with whitespace runs collapsed to
single hyphens. -/
theorem claim_C7_derivedIdentifier (e : CVElement) (inL : Bool)
    (hk : e.type ∈ inputKinds) (hl : truthyS e.label = true) :
    strContains (chunksJoin (renderElem e inL).1) ("for=\"" ++ derivedId e ++ "\"") ∧
    strContains (chunksJoin (renderElem e inL).1) (" id=\"" ++ derivedId e ++ "\"") ∧
    (truthyS e.name = true → derivedId e = orEmpty e.name) ∧
    (truthyS e.name = false → derivedId e = slug (orEmpty e.label)) := by
  have hne : ¬ e.type = "section-header" := by
    intro h
    rw [h] at hk
    exact absurd hk (by decide)
  have hrend : (renderElem e inL).1 = closeList inL ++ inputChunks e := by
    simp [renderElem, hne, hk]
  have hin := inputChunks_for_id e hl
  rw [hrend, chunksJoin_append]
  refine ⟨strContains_right _ _ _ hin.1, strContains_right _ _ _ hin.2, ?_, ?_⟩
  · intro h
    simp [derivedId, h]
  · intro h
    simp [derivedId, h]

/-- Claim C7 witness: a labeled text input without a name derives its identifier
from the label; one with a name uses the name. -/
theorem claim_C7_derivedIdentifier_witness :
    (strContains
      (chunksJoin (renderElem { type := "text-input", label := some "Full Name" } false).1)
      ("for=\"" ++ derivedId { type := "text-input", label := some "Full Name" } ++ "\"") ∧
    strContains
      (chunksJoin (renderElem { type := "text-input", label := some "Full Name" } false).1)
      (" id=\"" ++ derivedId { type := "text-input", label := some "Full Name" } ++ "\"") ∧
    (truthyS ({ type := "text-input", label := some "Full Name" } : CVElement).name = true →
      derivedId { type := "text-input", label := some "Full Name" } =
        orEmpty ({ type := "text-input", label := some "Full Name" } : CVElement).name) ∧
    (truthyS ({ type := "text-input", label := some "Full Name" } : CVElement).name = false →
      derivedId { type := "text-input", label := some "Full Name" } =
        slug (orEmpty ({ type := "text-input", label := some "Full Name" } : CVElement).label))) :=
  claim_C7_derivedIdentifier { type := "text-input", label := some "Full Name" } false
    (by decide) rfl

end GenAi
